import Mathlib

/-!
Shallow embedding of the v2dl crawler core (task service, rate-limited
downloader, album dedup tracker, pagination scraper) together with proofs
about the behaviour of those embedded operations.

Python strings are modelled as `List Char`, the on-disk file system as an
association list from paths to byte lists, machine reals used by the rate
limiter as `ℚ`, and the `httpx` streaming request as an explicit outcome
datatype.  Each definition is annotated with the source location it embeds.
-/

namespace V2DL

/-- Python string, modelled as its list of characters. -/
abbrev PyStr := List Char

/-- File system state: an association list from file paths to file contents
(bytes as naturals).  Directories are implicit (`mkdir(parents=True,
exist_ok=True)` has no observable effect in this model). -/
abbrev FS := List (PyStr × List Nat)

/-- True when the path is present in the file system (`Path.exists`). -/
def pathExists (fs : FS) (p : PyStr) : Bool :=
  fs.any (fun e => e.1 == p)

/-- Overwriting write (`open(save_path, "wb")` followed by the chunk writes):
replaces the contents at the path, or appends a new entry. -/
def fsWrite (fs : FS) (p : PyStr) (bytes : List Nat) : FS :=
  if fs.any (fun e => e.1 == p) then
    fs.map (fun e => if e.1 == p then (p, bytes) else e)
  else
    fs ++ [(p, bytes)]

/-! ## Streaming request model (httpx)

`httpx` exception hierarchy relevant to src/v2dl/utils/download.py:
`HTTPStatusError` (raised by `response.raise_for_status()`) is NOT a
`RequestError`; `TimeoutException` is a subclass of `RequestError`.  The
outcome of one streaming GET is either a full chunk sequence, an HTTP error
status detected by `raise_for_status` (before the file is opened), or a
transport failure (timeout / connection error) after some prefix of the
chunks was already written. -/

/-- Outcome of the underlying `client.stream("GET", url)` interaction. -/
inductive StreamOutcome where
  | ok (chunks : List (List Nat))
  | httpStatusError
  | timeoutException (written : List (List Nat))
  | requestError (written : List (List Nat))
deriving DecidableEq

/-- Exceptions that can escape the streaming block. -/
inductive HttpxError where
  | httpStatusError
  | timeoutException
  | requestError
deriving DecidableEq

/-- Body of the `with client.stream(...)` block in `download`
(src/v2dl/utils/download.py lines 145-160): `raise_for_status`, then open the
file and write each chunk.  A transport failure mid-stream leaves the prefix
written so far on disk. -/
def stream_body (fs : FS) (save_path : PyStr) (out : StreamOutcome) :
    Except HttpxError Unit × FS :=
  match out with
  | .ok chunks => (.ok (), fsWrite fs save_path chunks.flatten)
  | .httpStatusError => (.error .httpStatusError, fs)
  | .timeoutException written => (.error .timeoutException, fsWrite fs save_path written.flatten)
  | .requestError written => (.error .requestError, fsWrite fs save_path written.flatten)

/-- Embeds `download` (src/v2dl/utils/download.py lines 127-164).  The `try`
around the streaming block catches only `httpx.TimeoutException` and
`httpx.RequestError` (both merely logged, then the function returns
normally); `httpx.HTTPStatusError` raised by `raise_for_status` matches
neither handler and escapes. -/
def download (fs : FS) (save_path : PyStr) (out : StreamOutcome) :
    Except HttpxError Unit × FS :=
  match stream_body fs save_path out with
  | (.ok u, fs') => (.ok u, fs')
  | (.error .timeoutException, fs') => (.ok (), fs')
  | (.error .requestError, fs') => (.ok (), fs')
  | (.error e, fs') => (.error e, fs')

/-- Embeds `download_image` (src/v2dl/utils/download.py lines 104-124):
returns `True` when `download` returns normally (logging "Downloaded"),
`False` when it raises (`HTTPStatusError` or any other exception). -/
def download_image (fs : FS) (save_path : PyStr) (out : StreamOutcome) :
    Bool × FS :=
  match download fs save_path out with
  | (.ok _, fs') => (true, fs')
  | (.error _, fs') => (false, fs')

/-- Embeds `async_download` (src/v2dl/utils/download.py lines 231-266): its
handlers catch `HTTPStatusError`, `RequestError` and `Exception` — every
exception — so it always returns normally. -/
def async_download (fs : FS) (save_path : PyStr) (out : StreamOutcome) :
    Except HttpxError Unit × FS :=
  match stream_body fs save_path out with
  | (_, fs') => (.ok (), fs')

/-- Embeds `async_download_image` (src/v2dl/utils/download.py lines 212-228). -/
def async_download_image (fs : FS) (save_path : PyStr) (out : StreamOutcome) :
    Bool × FS :=
  match async_download fs save_path out with
  | (.ok _, fs') => (true, fs')
  | (.error _, fs') => (false, fs')

/-! ## Destination path construction (download jobs) -/

/-- Characters deleted from a label before it is used as a filename
(`re.sub(r'[<>:"/\\|?*]', "", alt)`, src/v2dl/utils/download.py line 52). -/
def INVALID_FILENAME_CHARS : List Char :=
  ['<', '>', ':', '"', '/', '\\', '|', '?', '*']

/-- Embeds the filename sanitisation: delete every occurrence of the invalid
characters from the label. -/
def sanitize_filename (alt : PyStr) : PyStr :=
  alt.filter (fun c => !(INVALID_FILENAME_CHARS.contains c))

/-- Extension allow-list of `get_image_extension`
(src/v2dl/utils/download.py line 274). -/
def IMAGE_EXTENSIONS : List PyStr :=
  ["jpg".data, "jpeg".data, "png".data, "gif".data, "bmp".data,
   "webp".data, "tiff".data, "svg".data]

/-- True when the url matches `(?:[^.]|^)\.(ext)$` case-insensitively for the
given lowercase extension: the url ends in `.` followed by the extension, and
the character before that dot (if any) is not itself a dot. -/
def matchesExtAt (url ext : PyStr) : Bool :=
  let r := url.reverse
  ((r.take ext.length).map Char.toLower == ext.reverse) &&
    (match r.drop ext.length with
     | '.' :: rest =>
       match rest with
       | [] => true
       | c :: _ => c != '.'
     | _ => false)

/-- Embeds `get_image_extension` (src/v2dl/utils/download.py lines 269-282):
returns the matched group (the extension characters as they appear in the
url), falling back to `"jpg"`. -/
def get_image_extension (url : PyStr) : PyStr :=
  match IMAGE_EXTENSIONS.find? (fun e => matchesExtAt url e) with
  | some e => (url.reverse.take e.length).reverse
  | none => "jpg".data

/-- Embeds `task_id.rsplit("_", 1)[0]`: everything before the last
underscore, or the whole string when there is none. -/
def rsplit1_head (s : PyStr) (sep : Char) : PyStr :=
  match s.reverse.dropWhile (fun c => c != sep) with
  | [] => s
  | _ :: rest => rest.reverse

/-- Destination file path computed by the download jobs
(src/v2dl/utils/download.py lines 47-53 and 193-199):
`destination / album_name / (filename ++ "." ++ extension)` where
`album_name = task_id.rsplit("_", 1)[0]` and `filename` is the sanitised
label. -/
def job_file_path (task_id url alt destination : PyStr) : PyStr :=
  destination ++ '/' ::
    (rsplit1_head task_id '_' ++ '/' ::
      (sanitize_filename alt ++ '.' :: get_image_extension url))

/-- Embeds `threading_download_job` (src/v2dl/utils/download.py lines 36-63).
The third component of the result counts the network requests performed.  The
outer `except Exception` has no raising operation left in this model and is
therefore not reachable. -/
def threading_download_job (fs : FS) (task_id url alt destination : PyStr)
    (no_skip : Bool) (net : StreamOutcome) : Bool × FS × Nat :=
  let file_path := job_file_path task_id url alt destination
  if pathExists fs file_path && !no_skip then
    (true, fs, 0)
  else
    let r := download_image fs file_path net
    (r.1, r.2, 1)

/-- Embeds `async_download_image_task` (src/v2dl/utils/download.py lines
167-209): identical path and skip logic, delegating to
`async_download_image`. -/
def async_download_image_task (fs : FS) (task_id url alt destination : PyStr)
    (no_skip : Bool) (net : StreamOutcome) : Bool × FS × Nat :=
  let file_path := job_file_path task_id url alt destination
  if pathExists fs file_path && !no_skip then
    (true, fs, 0)
  else
    let r := async_download_image fs file_path net
    (r.1, r.2, 1)

/-! ## Album dedup tracker -/

/-- True when `rest` begins with `page=` followed by at least one digit and
nothing else. -/
def isPageQuery (rest : PyStr) : Bool :=
  ("page=".data).isPrefixOf rest &&
    !(rest.drop 5).isEmpty && (rest.drop 5).all Char.isDigit

/-- Modelled from the spec: `LinkParser.remove_page_num` — the parser module
is absent from src; the spec says the tracker normalises "by stripping any
page-number query parameter" (stored URLs are "query-page-number stripped").
A page-number query parameter is a trailing `?page=<digits>`. -/
def remove_page_num : PyStr → PyStr
  | [] => []
  | c :: rest =>
    if c == '?' && isPageQuery rest then []
    else c :: remove_page_num rest

/-- Embeds `AlbumTracker.is_downloaded` (src/v2dl/utils/download.py lines
22-27, identically src/v2dl/v2dl.py lines 205-210): read the log lines and
test exact membership of the argument — no normalisation.  The log file is
modelled as its list of lines (absent file = empty list). -/
def is_downloaded (log : List PyStr) (album_url : PyStr) : Bool :=
  decide (album_url ∈ log)

/-- Embeds `AlbumTracker.log_downloaded` (src/v2dl/utils/download.py lines
29-33): normalise first, then append one line when the normalised url is not
already present. -/
def log_downloaded (log : List PyStr) (album_url : PyStr) : List PyStr :=
  let u := remove_page_num album_url
  if is_downloaded log u then log else log ++ [u]

/-! ## Scraper collection-name extraction and task submission -/

/-- Python `\s` whitespace class. -/
def isPySpace (c : Char) : Bool :=
  c == ' ' || c == '\t' || c == '\n' || c == '\r' || c == '\x0b' || c == '\x0c'

/-- Python `str.isdigit` restricted to ASCII digits: nonempty and all
digits. -/
def py_isdigit (s : PyStr) : Bool :=
  !s.isEmpty && s.all Char.isDigit

/-- Embeds `re.sub(r"\s*\d*$", "", s)`: remove the maximal trailing run of
whitespace followed by digits. -/
def strip_trailing_ws_digits (s : PyStr) : PyStr :=
  ((s.reverse.dropWhile Char.isDigit).dropWhile isPySpace).reverse

/-- Embeds Python `str.strip()`. -/
def py_strip (s : PyStr) : PyStr :=
  ((s.dropWhile isPySpace).reverse.dropWhile isPySpace).reverse

/-- Embeds `AlbumImageStrategy._extract_album_name` (src/v2dl/scrapper.py
lines 200-207): first non-digit label, trailing digits/whitespace stripped;
fall back to the site's base path segment (`BASE_URL` lives in the absent
const module, so the fallback value is a parameter). -/
def extract_album_name (alts : List PyStr) (base_fallback : PyStr) : PyStr :=
  let found := alts.find? (fun a => !(py_isdigit a))
  let stripped :=
    match found with
    | some a => if a.isEmpty then a else py_strip (strip_trailing_ws_digits a)
    | none => []
  if stripped.isEmpty then base_fallback else stripped

/-- Task id passed by `AlbumImageStrategy.process_page_links`
(src/v2dl/scrapper.py line 186): the constant string literal
`"Error processing task"`, for every page batch. -/
def process_page_links_task_id : PyStr :=
  "Error processing task".data

/-- Number of download tasks submitted by one `process_page_links` call
(src/v2dl/scrapper.py lines 182-196): one `add_task` call per page batch
when not a dry run. -/
def process_page_links_tasks_submitted (dry_run : Bool) : Nat :=
  if dry_run then 0 else 1

/-! ## Task service: worker-pool backend (ThreadingService)

A task's runtime behaviour is abstracted to the outcome of
`task.func(*task.args, **task.kwargs)`: either a return value or a raised
exception.  The result store (`self.results`) is a Python dict, modelled as
an insertion-ordered association list with in-place update. -/

/-- Task together with the outcome of running its job. -/
structure PTask (V : Type) where
  task_id : PyStr
  run : Except Unit V

/-- Python dict assignment `m[k] = v`: update in place when the key is
present, else append. -/
def dict_set {V : Type} (m : List (PyStr × V)) (k : PyStr) (v : V) :
    List (PyStr × V) :=
  if m.any (fun p => decide (p.1 = k)) then
    m.map (fun p => if p.1 = k then (k, v) else p)
  else
    m ++ [(k, v)]

/-- All stored entries for a given task id. -/
def entriesFor {V : Type} (m : List (PyStr × V)) (k : PyStr) :
    List (PyStr × V) :=
  m.filter (fun p => decide (p.1 = k))

/-- Embeds the loop body of `ThreadingService._process_tasks`
(src/v2dl/utils/threading.py lines 93-100): run the job; on success store the
result under the task id (under the lock); on any exception log and store
nothing. -/
def process_one {V : Type} (results : List (PyStr × V)) (t : PTask V) :
    List (PyStr × V) :=
  match t.run with
  | .ok v => dict_set results t.task_id v
  | .error _ => results

/-- Result store after the workers have drained the queue (the order in
which the lock serialises the per-task store writes is the order of the
list). -/
def process_tasks {V : Type} (results : List (PyStr × V))
    (ts : List (PTask V)) : List (PyStr × V) :=
  ts.foldl process_one results

/-- Embeds `AsyncService._run_task` (src/v2dl/utils/threading.py lines
165-174): same store discipline — on success store under the task id, on any
exception log and return `None` without storing. -/
def run_task {V : Type} (results : List (PyStr × V)) (t : PTask V) :
    List (PyStr × V) :=
  match t.run with
  | .ok v => dict_set results t.task_id v
  | .error _ => results

/-! ## Task service: event-loop backend (AsyncService) driving loop -/

/-- An in-flight asyncio task together with its `done()` flag. -/
structure Flight (τ : Type) where
  task : τ
  done : Bool

/-- Embeds the pruning step `[task for task in self.current_tasks if not
task.done()]` (src/v2dl/utils/threading.py line 149). -/
def prune {τ : Type} (cur : List (Flight τ)) : List (Flight τ) :=
  cur.filter (fun f => !f.done)

/-- Embeds the admission loop (src/v2dl/utils/threading.py lines 154-160):
pop from the queue and create an in-flight task while the in-flight count is
below `max_workers`. -/
def admission {τ : Type} (maxW : Nat) :
    List τ → List (Flight τ) → List τ × List (Flight τ)
  | [], cur => ([], cur)
  | t :: q, cur =>
    if cur.length < maxW then admission maxW q (cur ++ [⟨t, false⟩])
    else (t :: q, cur)

/-- Completion oracle: after `asyncio.wait(..., FIRST_COMPLETED)` resumes,
some in-flight operations are marked done (which ones is decided by the
scheduler, here an arbitrary oracle over positions). -/
def mark_done {τ : Type} (oracle : Nat → Bool) :
    Nat → List (Flight τ) → List (Flight τ)
  | _, [] => []
  | i, f :: rest =>
    (if oracle i then ⟨f.task, true⟩ else f) :: mark_done oracle (i + 1) rest

/-- State of `AsyncService._process_tasks`: the pending queue and the
in-flight list. -/
structure LoopState (τ : Type) where
  queue : List τ
  current : List (Flight τ)

/-- One iteration of the driving loop (src/v2dl/utils/threading.py lines
147-163): prune completed operations, admission pending tasks while below
capacity, then suspend until the oracle marks some operations complete. -/
def loop_step {τ : Type} (maxW : Nat) (oracle : Nat → Bool)
    (s : LoopState τ) : LoopState τ :=
  let pruned := prune s.current
  let next := admission maxW s.queue pruned
  { queue := next.1, current := mark_done oracle 0 next.2 }

/-- The driving loop over a sequence of scheduler decisions. -/
def run_loop {τ : Type} (maxW : Nat) (os : List (Nat → Bool))
    (s : LoopState τ) : LoopState τ :=
  os.foldl (fun s o => loop_step maxW o s) s

/-! ## Rate-limited streaming loop -/

/-- Embeds `speed_limit_bps = speed_limit_kbps * 1024`
(src/v2dl/utils/download.py line 140). -/
def speed_limit_bps (kbps : Nat) : Nat :=
  kbps * 1024

/-- One iteration of the chunk loop in `download`
(src/v2dl/utils/download.py lines 152-160) over a modelled clock: state is
(current time, bytes downloaded); a chunk is its byte count paired with the
time the network takes to deliver it.  After writing, `elapsed = now − start`
and `expected = downloaded / rate`; when `elapsed < expected` the loop sleeps
`expected − elapsed`, advancing the clock.  `async_download` (lines 252-260)
performs the identical arithmetic. -/
def rate_chunk_step (rate start : ℚ) (st : ℚ × ℚ) (c : Nat × ℚ) : ℚ × ℚ :=
  if st.1 + c.2 - start < (st.2 + (c.1 : ℚ)) / rate then
    (st.1 + c.2 + ((st.2 + (c.1 : ℚ)) / rate - (st.1 + c.2 - start)),
     st.2 + (c.1 : ℚ))
  else
    (st.1 + c.2, st.2 + (c.1 : ℚ))

/-- The whole chunk loop, started at `start_time = time.time()` with
`downloaded = 0`. -/
def rate_loop (rate start : ℚ) (chunks : List (Nat × ℚ)) : ℚ × ℚ :=
  chunks.foldl (rate_chunk_step rate start) (start, 0)

/-! ## Pagination pacing -/

/-- Embeds `LinkScraper._handle_pagination` (src/v2dl/scrapper.py lines
92-102): increment the page; sleep `consecutive_sleep` seconds when the new
page number is divisible by `max_consecutive_page`.  Returns (next page,
seconds slept). -/
def handle_pagination (current_page max_consecutive_page consecutive_sleep : Nat) :
    Nat × Nat :=
  let next_page := current_page + 1
  (next_page,
   if next_page % max_consecutive_page == 0 then consecutive_sleep else 0)

/-- Sleep trace of a crawl in scrapper.py: entry `n` is the seconds slept
after the `(n+1)`-th consecutively fetched page, when the crawl starts at
page `p` and fetches `m` pages followed by pagination. -/
def pagination_sleeps (maxC sleepT : Nat) : Nat → Nat → List Nat
  | _, 0 => []
  | p, Nat.succ m =>
    let r := handle_pagination p maxC sleepT
    r.2 :: pagination_sleeps maxC sleepT r.1 m

/-- Embeds the pacing of the legacy loop `LinkScraper.scrape_link`
(src/v2dl/v2dl.py lines 145-149): a consecutive-page counter is incremented
per fetched page and reset (with a sleep) when it reaches
`max_consecutive_page`.  Entry `n` of the trace is whether a sleep followed
the `(n+1)`-th consecutively fetched page, starting from counter `c`. -/
def scrape_link_sleeps (maxC : Nat) : Nat → Nat → List Bool
  | _, 0 => []
  | c, Nat.succ m =>
    let c' := c + 1
    if c' == maxC then true :: scrape_link_sleeps maxC 0 m
    else false :: scrape_link_sleeps maxC c' m

/-- C1: evaluating `download_image` at a transport failure.  The claim says a
timeout or connection failure is reported as `False`; the code catches both
inside `download` (which then returns normally), so `download_image` reports
`True` for them, and `False` only for an HTTP error status. -/
theorem C1_transport_error_returns_true :
    (download_image [] [] (.timeoutException [])).1 = true ∧
    (download_image [] [] (.requestError [])).1 = true ∧
    (download_image [] [] .httpStatusError).1 = false := by
  decide

/-- C2 (counterexample): logging `"http://a"` (no page parameter) and then
querying `is_downloaded` with `"http://a" + "?page=3"` yields `false`,
because `is_downloaded` performs no normalisation — contradicting the claim
that it strips the page-number parameter before the scan. -/
theorem C2_counterexample :
    "http://a?page=3".data = "http://a".data ++ "?page=3".data ∧
    is_downloaded (log_downloaded [] "http://a".data)
      ("http://a?page=3".data) = false := by
  decide

/-- C2 (amended): after `log_downloaded u`, `is_downloaded` returns true for
the normalised url `remove_page_num u`; normalisation happens only at
logging time, so for a url `u` logged without a page parameter, querying
`u ++ "?page=3"` returns false whenever that exact string is not already in
the log. -/
theorem C2_dedup_roundtrip_amended :
    (∀ (log : List PyStr) (u : PyStr),
        is_downloaded (log_downloaded log u) (remove_page_num u) = true) ∧
    (∀ (log : List PyStr) (u : PyStr),
        remove_page_num u = u →
        is_downloaded log (u ++ "?page=3".data) = false →
        is_downloaded (log_downloaded log u) (u ++ "?page=3".data) = false) := by
  constructor
  · intro log u
    simp only [log_downloaded]
    split
    · assumption
    · simp [is_downloaded]
  · intro log u hnorm hnotin
    simp only [log_downloaded, hnorm]
    split
    · exact hnotin
    · simp only [is_downloaded, decide_eq_false_iff_not] at hnotin ⊢
      intro hmem
      rcases List.mem_append.mp hmem with hmem | hmem
      · exact hnotin hmem
      · simp only [List.mem_singleton] at hmem
        have heq : u ++ "?page=3".data = u ++ [] := by
          rw [List.append_nil]; exact hmem
        exact absurd (List.append_cancel_left heq) (by decide)

/-- C2 (witness): the amended round-trip evaluated at the empty log and the
url `"http://a"`. -/
theorem C2_witness :
    is_downloaded (log_downloaded [] "http://a".data)
      (remove_page_num "http://a".data) = true ∧
    is_downloaded (log_downloaded [] "http://a".data)
      ("http://a".data ++ "?page=3".data) = false :=
  ⟨C2_dedup_roundtrip_amended.1 [] _,
   C2_dedup_roundtrip_amended.2 [] _ (by decide) (by decide)⟩

/-- C3: evaluating the code at a page batch with labels
`["Holiday 01", "2"]`.  One task is submitted per batch, and the collection
name derived from the labels is `"Holiday"`, but the submitted task id is
the constant `"Error processing task"` — so the album name the downloader
would derive from that id is not the collection name, contradicting the
claim (and the downloader's own comment that task ids have the form
`album_name_index`). -/
theorem C3_task_id_not_collection_name :
    process_page_links_tasks_submitted false = 1 ∧
    extract_album_name ["Holiday 01".data, "2".data] "v2ph".data
      = "Holiday".data ∧
    rsplit1_head process_page_links_task_id '_'
      = "Error processing task".data ∧
    rsplit1_head process_page_links_task_id '_'
      ≠ extract_album_name ["Holiday 01".data, "2".data] "v2ph".data := by
  decide

/-- C4: a task whose job raises is absorbed at the point of execution in
both backends: it stores nothing in the result store, and removing it from
any position of the executed sequence leaves the final store of the sibling
tasks unchanged. -/
theorem C4_job_error_isolated {V : Type} (t : PTask V)
    (h : t.run = .error ()) :
    (∀ results : List (PyStr × V), process_one results t = results) ∧
    (∀ results : List (PyStr × V), run_task results t = results) ∧
    (∀ (results : List (PyStr × V)) (pre post : List (PTask V)),
        process_tasks results (pre ++ t :: post)
          = process_tasks results (pre ++ post)) ∧
    (∀ (results : List (PyStr × V)) (pre post : List (PTask V)),
        (pre ++ t :: post).foldl run_task results
          = (pre ++ post).foldl run_task results) := by
  have h1 : ∀ results : List (PyStr × V), process_one results t = results := by
    intro r; simp [process_one, h]
  have h2 : ∀ results : List (PyStr × V), run_task results t = results := by
    intro r; simp [run_task, h]
  refine ⟨h1, h2, ?_, ?_⟩
  · intro r pre post
    simp [process_tasks, List.foldl_append, h1]
  · intro r pre post
    simp [List.foldl_append, h2]

/-- C4 (witness): a raising task between two stored executions changes
nothing for its sibling. -/
theorem C4_witness :
    process_tasks ([] : List (PyStr × Nat))
        [⟨"b".data, .ok 5⟩, ⟨"a".data, .error ()⟩]
      = process_tasks ([] : List (PyStr × Nat)) [⟨"b".data, .ok 5⟩] :=
  (C4_job_error_isolated ⟨"a".data, .error ()⟩ rfl).2.2.1 []
    [⟨"b".data, .ok 5⟩] []

/-- Dict assignment grows the store by at most one entry. -/
theorem length_dict_set_le {V : Type} (m : List (PyStr × V)) (k : PyStr)
    (v : V) : (dict_set m k v).length ≤ m.length + 1 := by
  unfold dict_set
  split
  · simp
  · simp

/-- Processing one task grows the store by at most one entry. -/
theorem length_process_one_le {V : Type} (r : List (PyStr × V)) (t : PTask V) :
    (process_one r t).length ≤ r.length + 1 := by
  unfold process_one
  split
  · apply length_dict_set_le
  · omega

/-- Draining a queue of `N` tasks grows the store by at most `N` entries. -/
theorem length_process_tasks_le {V : Type} (ts : List (PTask V))
    (r : List (PyStr × V)) :
    (process_tasks r ts).length ≤ r.length + ts.length := by
  induction ts generalizing r with
  | nil => simp [process_tasks]
  | cons t ts ih =>
    have h1 := length_process_one_le r t
    have h2 := ih (process_one r t)
    simp only [process_tasks, List.foldl_cons, List.length_cons] at h2 ⊢
    omega

/-- In-place dict update at a different key does not touch the entries for
key `k`. -/
theorem filter_key_map_set_ne {V : Type} (k k' : PyStr) (v : V) (h : k' ≠ k) :
    ∀ m : List (PyStr × V),
      ((m.map (fun p => if p.1 = k' then (k', v) else p)).filter
          (fun p => decide (p.1 = k)))
        = m.filter (fun p => decide (p.1 = k))
  | [] => rfl
  | p :: m => by
    have ih := filter_key_map_set_ne k k' v h m
    by_cases hp : p.1 = k'
    · rw [List.map_cons, if_pos hp,
        List.filter_cons_of_neg (by simp [h]),
        List.filter_cons_of_neg (by simp [hp, h])]
      exact ih
    · rw [List.map_cons, if_neg hp]
      by_cases hk : p.1 = k
      · rw [List.filter_cons_of_pos (by simp [hk]),
          List.filter_cons_of_pos (by simp [hk]), ih]
      · rw [List.filter_cons_of_neg (by simp [hk]),
          List.filter_cons_of_neg (by simp [hk]), ih]

/-- Dict assignment at a different key does not touch the entries for key
`k`. -/
theorem filter_key_dict_set_ne {V : Type} (m : List (PyStr × V))
    (k k' : PyStr) (v : V) (h : k' ≠ k) :
    (dict_set m k' v).filter (fun p => decide (p.1 = k))
      = m.filter (fun p => decide (p.1 = k)) := by
  unfold dict_set
  split
  · exact filter_key_map_set_ne k k' v h m
  · simp [List.filter_append, h]

/-- Processing a task with a different id does not touch the entries for key
`k`. -/
theorem filter_key_process_one_ne {V : Type} (r : List (PyStr × V))
    (t : PTask V) (k : PyStr) (h : t.task_id ≠ k) :
    (process_one r t).filter (fun p => decide (p.1 = k))
      = r.filter (fun p => decide (p.1 = k)) := by
  unfold process_one
  split
  · exact filter_key_dict_set_ne _ _ _ _ h
  · rfl

/-- Draining tasks none of which has id `k` does not touch the entries for
key `k`. -/
theorem filter_key_process_tasks_ne {V : Type} (ts : List (PTask V))
    (r : List (PyStr × V)) (k : PyStr) (h : k ∉ ts.map PTask.task_id) :
    (process_tasks r ts).filter (fun p => decide (p.1 = k))
      = r.filter (fun p => decide (p.1 = k)) := by
  induction ts generalizing r with
  | nil => rfl
  | cons t ts ih =>
    simp only [List.map_cons, List.mem_cons, not_or] at h
    simp only [process_tasks, List.foldl_cons]
    have hrec := ih (process_one r t) h.2
    simp only [process_tasks] at hrec
    rw [hrec]
    exact filter_key_process_one_ne r t k (Ne.symm h.1)

/-- Dict assignment at a key with no prior entries leaves exactly the new
entry for that key. -/
theorem filter_key_dict_set_self {V : Type} (m : List (PyStr × V))
    (k : PyStr) (v : V) (h : m.filter (fun p => decide (p.1 = k)) = []) :
    (dict_set m k v).filter (fun p => decide (p.1 = k)) = [(k, v)] := by
  have hall := List.filter_eq_nil_iff.mp h
  have hany : m.any (fun p => decide (p.1 = k)) = false := by
    rw [← Bool.not_eq_true, List.any_eq_true]
    rintro ⟨p, hp, hpk⟩
    exact hall p hp hpk
  unfold dict_set
  rw [hany]
  simp [List.filter_append, h]

/-- C5: with pairwise distinct task ids, any drained execution order of the
worker pool produces a result store with at most `N` entries, holding
exactly one entry — the job's return value — for every task whose job did
not raise. -/
theorem C5_worker_pool_results {V : Type} (ts exec : List (PTask V))
    (hperm : exec.Perm ts) (hnodup : (ts.map PTask.task_id).Nodup) :
    (process_tasks [] exec).length ≤ ts.length ∧
    ∀ t ∈ ts, ∀ v : V, t.run = .ok v →
      entriesFor (process_tasks [] exec) t.task_id = [(t.task_id, v)] := by
  have hlen : (process_tasks ([] : List (PyStr × V)) exec).length ≤ ts.length := by
    have h := length_process_tasks_le exec ([] : List (PyStr × V))
    simpa [hperm.length_eq] using h
  refine ⟨hlen, ?_⟩
  intro t ht v hv
  have hnodup' : (exec.map PTask.task_id).Nodup :=
    ((hperm.map PTask.task_id).nodup_iff).mpr hnodup
  have htexec : t ∈ exec := hperm.mem_iff.mpr ht
  obtain ⟨pre, post, hsplit⟩ := List.append_of_mem htexec
  subst hsplit
  simp only [List.map_append, List.map_cons, List.nodup_append,
    List.nodup_cons] at hnodup'
  have hpre : t.task_id ∉ pre.map PTask.task_id := fun hm =>
    hnodup'.2.2 hm (List.mem_cons_self _ _)
  have hpost : t.task_id ∉ post.map PTask.task_id := hnodup'.2.1.1
  have hcalc : process_tasks ([] : List (PyStr × V)) (pre ++ t :: post)
      = process_tasks (process_one (process_tasks [] pre) t) post := by
    simp [process_tasks, List.foldl_append]
  rw [hcalc]
  have h0 : (process_tasks ([] : List (PyStr × V)) pre).filter
      (fun p => decide (p.1 = t.task_id)) = [] :=
    filter_key_process_tasks_ne pre [] t.task_id hpre
  have h1 : (process_one (process_tasks ([] : List (PyStr × V)) pre) t).filter
      (fun p => decide (p.1 = t.task_id)) = [(t.task_id, v)] := by
    simp only [process_one, hv]
    exact filter_key_dict_set_self _ _ _ h0
  have h2 := filter_key_process_tasks_ne post
    (process_one (process_tasks ([] : List (PyStr × V)) pre) t) t.task_id hpost
  simp only [entriesFor]
  rw [h2, h1]

/-- C5 (witness): two tasks, one of which raises, drained in submission
order. -/
theorem C5_witness :
    (process_tasks ([] : List (PyStr × Nat))
        [⟨"a".data, .ok 1⟩, ⟨"b".data, .error ()⟩]).length ≤ 2 ∧
    entriesFor (process_tasks ([] : List (PyStr × Nat))
        [⟨"a".data, .ok 1⟩, ⟨"b".data, .error ()⟩]) "a".data
      = [("a".data, 1)] := by
  have h := C5_worker_pool_results (V := Nat)
    [⟨"a".data, .ok 1⟩, ⟨"b".data, .error ()⟩]
    [⟨"a".data, .ok 1⟩, ⟨"b".data, .error ()⟩]
    (List.Perm.refl _) (by decide)
  exact ⟨h.1, h.2 ⟨"a".data, .ok 1⟩ (List.mem_cons_self _ _) 1 rfl⟩

/-- C7: when the computed destination file already exists and `no_skip` is
disabled, both download jobs return `True`, leave the whole file system (in
particular the existing file's bytes) unchanged, and perform zero network
requests. -/
theorem C7_skip_existing (fs : FS) (task_id url alt destination : PyStr)
    (net : StreamOutcome)
    (h : pathExists fs (job_file_path task_id url alt destination) = true) :
    threading_download_job fs task_id url alt destination false net
      = (true, fs, 0) ∧
    async_download_image_task fs task_id url alt destination false net
      = (true, fs, 0) := by
  constructor <;>
    simp [threading_download_job, async_download_image_task, h]

/-- C7 (witness): skipping over a file system that already holds
`d/a/x.jpg`. -/
theorem C7_witness :
    pathExists [("d/a/x.jpg".data, [7])]
      (job_file_path "a_1".data "u.jpg".data "x".data "d".data) = true ∧
    threading_download_job [("d/a/x.jpg".data, [7])] "a_1".data "u.jpg".data
        "x".data "d".data false (.ok [[1]])
      = (true, [("d/a/x.jpg".data, [7])], 0) :=
  ⟨by decide,
   (C7_skip_existing [("d/a/x.jpg".data, [7])] "a_1".data "u.jpg".data
      "x".data "d".data (.ok [[1]]) (by decide)).1⟩

/-- C9 (counterexample): a crawl starting at page offset 2 sleeps the
cool-down right after its first consecutively fetched page (the incremented
page number 3 is divisible by 3), although 1 is not a multiple of K = 3 —
so the sleep is a function of the absolute page number, not of the count of
consecutively fetched pages. -/
theorem C9_counterexample :
    pagination_sleeps 3 15 2 1 = [15] ∧ ¬(1 % 3 = 0) := by
  decide

/-- C10: deleting an invalid character anywhere in a label does not change
its sanitised form, and any two labels with the same sanitised form drive
both download jobs to exactly the same behaviour (same destination path,
hence identical results on every file system and network outcome). -/
theorem C10_sanitized_label_paths :
    (∀ (l1 l2 : PyStr) (c : Char), INVALID_FILENAME_CHARS.contains c = true →
        sanitize_filename (l1 ++ c :: l2) = sanitize_filename (l1 ++ l2)) ∧
    (∀ (fs : FS) (task_id url alt alt' destination : PyStr)
        (no_skip : Bool) (net : StreamOutcome),
        sanitize_filename alt = sanitize_filename alt' →
        threading_download_job fs task_id url alt destination no_skip net
          = threading_download_job fs task_id url alt' destination no_skip net ∧
        async_download_image_task fs task_id url alt destination no_skip net
          = async_download_image_task fs task_id url alt' destination no_skip net) := by
  constructor
  · intro l1 l2 c hc
    simp [sanitize_filename, List.filter_append, List.filter_cons, hc]
    simpa using hc
  · intro fs task_id url alt alt' destination no_skip net h
    have hp : job_file_path task_id url alt destination
        = job_file_path task_id url alt' destination := by
      simp [job_file_path, h]
    constructor <;>
      simp [threading_download_job, async_download_image_task, hp]

/-- C10 (witness): the label `"x?y"` and its sanitised sibling `"xy"` map to
the same destination and behaviour. -/
theorem C10_witness :
    sanitize_filename ([] ++ '?' :: ['a']) = sanitize_filename ([] ++ ['a']) ∧
    threading_download_job [] "a_1".data "u.jpg".data "x?y".data "d".data
        false (.ok [])
      = threading_download_job [] "a_1".data "u.jpg".data "xy".data "d".data
        false (.ok []) :=
  ⟨C10_sanitized_label_paths.1 [] ['a'] '?' (by decide),
   (C10_sanitized_label_paths.2 [] "a_1".data "u.jpg".data "x?y".data
      "xy".data "d".data false (.ok []) (by decide)).1⟩

/-- The admission loop never grows the in-flight list beyond
`max_workers`. -/
theorem admission_length_le {τ : Type} (maxW : Nat) (q : List τ) :
    ∀ cur : List (Flight τ), cur.length ≤ maxW →
      (admission maxW q cur).2.length ≤ maxW := by
  induction q with
  | nil => intro cur h; exact h
  | cons t q ih =>
    intro cur h
    simp only [admission]
    split
    next hlt =>
      apply ih
      simp only [List.length_append, List.length_singleton]
      omega
    next hge => exact h

/-- At capacity, the admission loop admits nothing. -/
theorem admission_at_capacity {τ : Type} (maxW : Nat) (q : List τ)
    (cur : List (Flight τ)) (h : maxW ≤ cur.length) :
    admission maxW q cur = (q, cur) := by
  cases q with
  | nil => rfl
  | cons t q =>
    simp only [admission]
    rw [if_neg (by omega)]

/-- Marking operations complete does not change how many are in flight. -/
theorem mark_done_length {τ : Type} (o : Nat → Bool) :
    ∀ (i : Nat) (cur : List (Flight τ)),
      (mark_done o i cur).length = cur.length
  | _, [] => rfl
  | i, f :: rest => by
    simp [mark_done, mark_done_length o (i + 1) rest]

/-- One driving-loop iteration preserves the in-flight bound. -/
theorem loop_step_current_le {τ : Type} (maxW : Nat) (o : Nat → Bool)
    (s : LoopState τ) (h : s.current.length ≤ maxW) :
    (loop_step maxW o s).current.length ≤ maxW := by
  unfold loop_step
  simp only
  rw [mark_done_length]
  exact admission_length_le maxW s.queue (prune s.current)
    (le_trans (List.length_filter_le _ _) h)

/-- The in-flight bound holds after any number of driving-loop
iterations. -/
theorem run_loop_current_le {τ : Type} (maxW : Nat) (os : List (Nat → Bool)) :
    ∀ s : LoopState τ, s.current.length ≤ maxW →
      (run_loop maxW os s).current.length ≤ maxW := by
  induction os with
  | nil => intro s h; exact h
  | cons o os ih =>
    intro s h
    exact ih _ (loop_step_current_le maxW o s h)

/-- C6: starting from any submission burst, the event-loop backend never has
more than `max_workers` operations in flight at any iteration of the
driving loop, and the admission step admits a pending task only while the
in-flight count is strictly below `max_workers` (at capacity it admits
nothing). -/
theorem C6_event_loop_bounded {τ : Type} (maxW : Nat) (burst : List τ)
    (os : List (Nat → Bool)) :
    (run_loop maxW os ⟨burst, []⟩).current.length ≤ maxW ∧
    ∀ (q : List τ) (cur : List (Flight τ)), maxW ≤ cur.length →
      admission maxW q cur = (q, cur) :=
  ⟨run_loop_current_le maxW os ⟨burst, []⟩ (by simp),
   fun q cur h => admission_at_capacity maxW q cur h⟩

/-- C6 (witness): a burst of three tasks against two workers, and an
admission attempt at capacity. -/
theorem C6_witness :
    (run_loop 2 [fun _ => false]
        ⟨[0, 1, 2], ([] : List (Flight Nat))⟩).current.length ≤ 2 ∧
    admission 2 [3] [⟨0, false⟩, ⟨1, false⟩]
      = ([3], [⟨0, false⟩, ⟨1, false⟩]) :=
  ⟨(C6_event_loop_bounded 2 [0, 1, 2] [fun _ => false]).1,
   (C6_event_loop_bounded 2 ([] : List Nat) []).2 [3]
     [⟨0, false⟩, ⟨1, false⟩] (by decide)⟩

/-- One chunk iteration re-establishes `downloaded / rate ≤ now − start`
and adds the chunk's bytes to the running total. -/
theorem rate_chunk_step_inv (rate start : ℚ) (st : ℚ × ℚ) (c : Nat × ℚ) :
    ((rate_chunk_step rate start st c).2 / rate
      ≤ (rate_chunk_step rate start st c).1 - start) ∧
    (rate_chunk_step rate start st c).2 = st.2 + (c.1 : ℚ) := by
  unfold rate_chunk_step
  split
  next hlt =>
    constructor
    · have heq : st.1 + c.2 + ((st.2 + (c.1 : ℚ)) / rate
          - (st.1 + c.2 - start)) - start = (st.2 + (c.1 : ℚ)) / rate := by
        ring
      simp only [heq]
      -- sleeping to exactly `expected` makes elapsed equal expected
      exact le_of_eq rfl
    · rfl
  next hge =>
    exact ⟨le_of_not_lt hge, rfl⟩

/-- Invariant of the whole chunk loop, together with byte accounting. -/
theorem rate_loop_aux (rate start : ℚ) (chunks : List (Nat × ℚ)) :
    ∀ st : ℚ × ℚ, st.2 / rate ≤ st.1 - start →
      ((chunks.foldl (rate_chunk_step rate start) st).2 / rate
        ≤ (chunks.foldl (rate_chunk_step rate start) st).1 - start) ∧
      (chunks.foldl (rate_chunk_step rate start) st).2
        = st.2 + (chunks.map (fun c => (c.1 : ℚ))).sum := by
  induction chunks with
  | nil => intro st h; exact ⟨h, by simp⟩
  | cons c cs ih =>
    intro st h
    have hstep := rate_chunk_step_inv rate start st c
    have hrec := ih (rate_chunk_step rate start st c) hstep.1
    refine ⟨by simpa using hrec.1, ?_⟩
    simp only [List.foldl_cons, List.map_cons, List.sum_cons]
    rw [hrec.2, hstep.2]
    ring

/-- C8: downloading `S` bytes through the rate-limited chunk loop with
ceiling `speed_limit_kbps * 1024` bytes per second takes at least
`S / rate` seconds of modelled wall-clock time, for every chunking and
every pattern of network delays. -/
theorem C8_rate_limit (kbps : Nat) (start : ℚ) (chunks : List (Nat × ℚ)) :
    (chunks.map (fun c => (c.1 : ℚ))).sum / (speed_limit_bps kbps : ℚ)
      ≤ (rate_loop (speed_limit_bps kbps : ℚ) start chunks).1 - start := by
  have h := rate_loop_aux (speed_limit_bps kbps : ℚ) start chunks
    (start, 0) (by simp)
  have h1 := h.1
  rw [h.2] at h1
  simpa [rate_loop] using h1

/-- Closed form of the scrapper.py sleep trace: the sleep follows the
`(i+1)`-th consecutively fetched page exactly when the absolute page number
`p + i + 1` is divisible by `max_consecutive_page`. -/
theorem pagination_sleeps_eq (maxC sleepT : Nat) (m : Nat) :
    ∀ p : Nat,
      pagination_sleeps maxC sleepT p m
        = (List.range m).map
            (fun i => if (p + i + 1) % maxC == 0 then sleepT else 0) := by
  induction m with
  | zero => intro p; rfl
  | succ m ih =>
    intro p
    rw [List.range_succ_eq_map, List.map_cons, List.map_map]
    simp only [pagination_sleeps, handle_pagination]
    refine congrArg₂ List.cons ?_ ?_
    · norm_num
    · rw [ih (p + 1)]
      apply List.map_congr_left
      intro i _
      have harith : p + 1 + i + 1 = p + (i + 1) + 1 := by omega
      simp [Function.comp, harith]

/-- Closed form of the v2dl.py sleep trace: starting from counter `c < 3`,
the sleep follows the `(i+1)`-th consecutively fetched page exactly when
`c + i + 1` is divisible by 3. -/
theorem scrape_link_sleeps_eq (m : Nat) :
    ∀ c : Nat, c < 3 →
      scrape_link_sleeps 3 c m
        = (List.range m).map (fun i => (c + i + 1) % 3 == 0) := by
  induction m with
  | zero => intro c _; rfl
  | succ m ih =>
    intro c hc
    rw [List.range_succ_eq_map, List.map_cons, List.map_map]
    by_cases h3 : c + 1 = 3
    · have hc2 : c = 2 := by omega
      subst hc2
      simp only [scrape_link_sleeps]
      rw [if_pos (by decide)]
      refine congrArg₂ List.cons (by decide) ?_
      rw [ih 0 (by omega)]
      apply List.map_congr_left
      intro i _
      have harith : (2 + (i + 1) + 1) % 3 = (0 + i + 1) % 3 := by omega
      simp [Function.comp, harith]
    · simp only [scrape_link_sleeps]
      rw [if_neg (by simpa using h3)]
      have hhead : ((c + 0 + 1) % 3 == 0) = false := by
        have : ¬((c + 0 + 1) % 3 = 0) := by omega
        simpa using this
      refine congrArg₂ List.cons (by rw [hhead]) ?_
      rw [ih (c + 1) (by omega)]
      apply List.map_congr_left
      intro i _
      have harith : (c + 1 + i + 1) % 3 = (c + (i + 1) + 1) % 3 := by omega
      simp [Function.comp, harith]

/-- C9 (amended): in scrapper.py the cool-down fires when the incremented
absolute page number is divisible by K = 3 (so the pattern depends on the
starting offset), while only the legacy loop in v2dl.py sleeps after every
3rd consecutively fetched page regardless of the page number. -/
theorem C9_pagination_amended :
    (∀ p m : Nat,
        pagination_sleeps 3 15 p m
          = (List.range m).map
              (fun i => if (p + i + 1) % 3 == 0 then 15 else 0)) ∧
    (∀ m : Nat,
        scrape_link_sleeps 3 0 m
          = (List.range m).map (fun i => (i + 1) % 3 == 0)) := by
  constructor
  · intro p m
    exact pagination_sleeps_eq 3 15 m p
  · intro m
    have h := scrape_link_sleeps_eq m 0 (by omega)
    simpa using h

end V2DL
